import Mathlib

/-!
Shallow embedding of `telegram_bot.py` (teleseerr): the Overseerr search
post-processing, the callback-data action-token codec used by
`handle_message` / `button_callback`, and the request-payload builder of
`request_overseerr`.  Python strings are modelled as `List Char`; Python
`None`-able values as `Option`.
-/

namespace Teleseerr

/-- Decides whether a character is an ASCII decimal digit; models the test
performed by Python's `str.isdigit` on ASCII input (non-ASCII digit
characters never arise in the token alphabet). -/
def isDigitChar (c : Char) : Bool := 48 ≤ c.toNat && c.toNat ≤ 57

/-- The ASCII character for a decimal digit value below ten. -/
def digitChar (d : Nat) : Char :=
  match d with
  | 0 => '0' | 1 => '1' | 2 => '2' | 3 => '3' | 4 => '4'
  | 5 => '5' | 6 => '6' | 7 => '7' | 8 => '8' | 9 => '9'
  | _ => '*'

/-- Fuel-driven digit printer: peels decimal digits of `n` onto `acc`. -/
def natToCharsAux : Nat → Nat → List Char → List Char
  | 0, _, acc => acc
  | fuel + 1, n, acc =>
      if n = 0 then acc else natToCharsAux fuel (n / 10) (digitChar (n % 10) :: acc)

/-- Models Python `str(n)` for a natural number `n` (the media ids and season
numbers handled by the bot are non-negative backend integers). -/
def natToChars (n : Nat) : List Char :=
  if n = 0 then ['0'] else natToCharsAux n n []

/-- Numeric value of a list of ASCII digit characters, most significant
first; models the value computed by Python `int(s)` on a digit string. -/
def digitsToNat (cs : List Char) : Nat :=
  cs.foldl (fun a c => 10 * a + (c.toNat - 48)) 0

/-- Models Python `int(s)`: an optional single sign followed by at least one
decimal digit.  CPython additionally tolerates surrounding whitespace and
underscore digit separators; neither can occur in the token alphabet handled
here, so they are not modelled. -/
def pyInt (cs : List Char) : Option Int :=
  match cs with
  | [] => none
  | c :: rest =>
      if c = '-' then
        if rest ≠ [] ∧ rest.all isDigitChar then some (-(digitsToNat rest : Int)) else none
      else if c = '+' then
        if rest ≠ [] ∧ rest.all isDigitChar then some ((digitsToNat rest : Int)) else none
      else if (c :: rest).all isDigitChar then some ((digitsToNat (c :: rest) : Int)) else none

/-- Models Python `s.isdigit()` for ASCII strings: non-empty and all digits. -/
def pyIsDigit (cs : List Char) : Bool := !cs.isEmpty && cs.all isDigitChar

/-- Models Python `s.split(sep)` for a single-character separator: splits at
every occurrence, keeping empty pieces, and returns `[s]` when the separator
does not occur (in particular `[""]` on the empty string). -/
def pySplit (sep : Char) : List Char → List (List Char)
  | [] => [[]]
  | c :: cs =>
      if c = sep then [] :: pySplit sep cs
      else
        match pySplit sep cs with
        | [] => [[c]]
        | p :: ps => (c :: p) :: ps

/-- Models Python `sep.join(parts)` for a single-character separator. -/
def pyJoin (sep : Char) : List (List Char) → List Char
  | [] => []
  | [p] => p
  | p :: ps => p ++ sep :: pyJoin sep ps

/-- Models Python `s.startswith(pre)`. -/
def pyStartsWith : List Char → List Char → Bool
  | [], _ => true
  | _ :: _, [] => false
  | c :: cs, d :: ds => c = d && pyStartsWith cs ds

/-- Python truthiness of an optional string (`None` and `""` are falsy). -/
def truthyStr (s : Option (List Char)) : Bool :=
  match s with
  | none => false
  | some cs => !cs.isEmpty

/-- Models the Python idiom `a or b` on optional strings, as in
`r.get("title") or r.get("name")` (line 77). -/
def pyOrElse (a b : Option (List Char)) : Option (List Char) :=
  if truthyStr a then a else b

/-- The `mediaInfo` record of a backend search result: the two Overseerr
status codes (`status`, `status4k`), each possibly absent. -/
structure MediaInfo where
  status : Option Int
  status4k : Option Int
deriving DecidableEq

/-- A raw backend search result as consumed by `search_overseerr`
(lines 50-85): the fields read via `r.get(...)`, each possibly absent. -/
structure RawResult where
  id : Option Int
  title : Option (List Char)
  name : Option (List Char)
  releaseDate : Option (List Char)
  mediaType : Option (List Char)
  overview : Option (List Char)
  posterPath : Option (List Char)
  mediaInfo : Option MediaInfo
deriving DecidableEq

/-- A processed search candidate, the dict appended to `processed_results`
(lines 75-85). -/
structure Candidate where
  title : Option (List Char)
  year : List Char
  media_id : Option Int
  media_type : Option (List Char)
  overview : Option (List Char)
  status : List Char
  poster_url : Option (List Char)
deriving DecidableEq

/-- The fixed TMDB image-host value `IMAGE_TMDB_URL` (line 26). -/
def IMAGE_TMDB_URL : List Char :=
  "https://image.tmdb.org/t/p/w600_and_h900_bestv2".toList

/-- Status derivation of `search_overseerr` (lines 56-70): from the optional
`mediaInfo` record, code 5 on either field gives "Available", a code in
{2, 3, 4} on either field gives "Requested", anything else (including an
absent record) gives "Not Requested". -/
def deriveStatus (mi : Option MediaInfo) : List Char :=
  match mi with
  | none => "Not Requested".toList
  | some info =>
      if info.status = some 5 ∨ info.status4k = some 5 then "Available".toList
      else if (info.status = some 2 ∨ info.status = some 3 ∨ info.status = some 4) ∨
              (info.status4k = some 2 ∨ info.status4k = some 3 ∨ info.status4k = some 4) then
        "Requested".toList
      else "Not Requested".toList

/-- Processing of one raw result into a candidate dict (lines 56-85 of
`search_overseerr`): title falls back to `name`, the year is the first four
characters of `releaseDate` (empty string when absent), the poster URL is the
image-host value prepended to a truthy `posterPath`. -/
def mkCandidate (r : RawResult) : Candidate :=
  { title := pyOrElse r.title r.name
    year := (r.releaseDate.getD []).take 4
    media_id := r.id
    media_type := r.mediaType
    overview := r.overview
    status := deriveStatus r.mediaInfo
    poster_url :=
      if truthyStr r.posterPath then some (IMAGE_TMDB_URL ++ r.posterPath.getD []) else none }

/-- The success-branch list processing of `search_overseerr` (lines 50-55):
filter to the requested media type when one is given (a truthy string), then
keep only the first two results, preserving backend order. -/
def processSearch (media_type : List Char) (results : List RawResult) : List Candidate :=
  let filtered :=
    if media_type ≠ [] then results.filter (fun r => r.mediaType = some media_type) else results
  (filtered.take 2).map mkCandidate

/-- An element of the list returned by `search_overseerr`: the Python
function returns candidate dicts on success but a raw response-text string
inside the list on failure (line 94). -/
inductive SearchItem where
  | candidate (c : Candidate)
  | text (s : List Char)
deriving DecidableEq

/-- The observable part of the backend HTTP search response consumed by
`search_overseerr`: success flag (`resp.is_success`), parsed `results`
array, and raw body text (`resp.text`). -/
structure HttpResponse where
  is_success : Bool
  results : List RawResult
  text : List Char
deriving DecidableEq

/-- Models `search_overseerr` (lines 31-94) as a function of the backend
response: on a successful response the processed candidates, on failure the
literal list `[resp.text]` that the source returns (line 94). -/
def search_overseerr (media_type : List Char) (resp : HttpResponse) : List SearchItem :=
  if resp.is_success then (processSearch media_type resp.results).map SearchItem.candidate
  else [SearchItem.text resp.text]

/-- The pending-request data carried through a callback token: media type,
media id and optional season list, as recovered by `button_callback`. -/
structure ActionToken where
  media_type : List Char
  media_id : Int
  seasons : Option (List Nat)
deriving DecidableEq

/-- How a decode attempt of a `request_`-prefixed callback string fails; each
constructor corresponds to one exception path of the `try` block in
`button_callback` (lines 337-349), except `notRequestToken` which models the
string never entering that branch at all. -/
inductive DecodeError where
  | notRequestToken
  | missingSegment
  | badInt
deriving DecidableEq

/-- The token encoder of `handle_message` (lines 256-263): the callback data
is `"request_" + media_type + "_" + str(media_id)`, with `"_"` and the
seasons sorted ascending and joined by `"-"` appended exactly when the
seasons list is truthy and the media type is `"tv"`. -/
def encodeCallback (media_type : List Char) (media_id : Nat) (seasons : List Nat) : List Char :=
  let seasons_str :=
    if seasons ≠ [] ∧ media_type = "tv".toList then
      '_' :: pyJoin '-' ((List.insertionSort (· ≤ ·) seasons).map natToChars)
    else []
  "request_".toList ++ media_type ++ '_' :: (natToChars media_id ++ seasons_str)

/-- The token decoder of `button_callback` (lines 336-349): require the
`"request_"` prefix, split on `"_"`, read the media type from segment 1 and
the media id via `int(...)` from segment 2, and when a fourth segment exists
and the media type is `"tv"`, parse it as `"-"`-separated season numbers,
silently dropping pieces that are not digit strings; an empty parsed season
list collapses to `none`. -/
def decodeCallback (data : List Char) : Except DecodeError ActionToken :=
  if pyStartsWith ("request_".toList) data then
    let parts := pySplit '_' data
    match parts[1]? with
    | none => .error .missingSegment
    | some media_type =>
      match parts[2]? with
      | none => .error .missingSegment
      | some idStr =>
        match pyInt idStr with
        | none => .error .badInt
        | some media_id =>
            let seasons : Option (List Nat) :=
              if 3 < parts.length ∧ media_type = "tv".toList then
                let parsed := ((pySplit '-' (parts.getD 3 [])).filter pyIsDigit).map digitsToNat
                if parsed = [] then none else some parsed
              else none
            .ok ⟨media_type, media_id, seasons⟩
  else .error .notRequestToken

/-- The JSON payload shape built by `request_overseerr` (lines 113-121):
`mediaId` and `mediaType` always, `seasons` present exactly when the source
adds the key to the dict. -/
structure RequestPayload where
  mediaId : Int
  mediaType : List Char
  seasons : Option (List Nat)
deriving DecidableEq

/-- The payload construction of `request_overseerr` (lines 113-121): the
`seasons` key is added only when the media type is `"tv"` and the seasons
argument is truthy (neither `None` nor empty). -/
def requestPayload (media_id : Int) (media_type : List Char)
    (seasons : Option (List Nat)) : RequestPayload :=
  { mediaId := media_id
    mediaType := media_type
    seasons :=
      if media_type = "tv".toList ∧ seasons.getD [] ≠ [] then seasons else none }

/-- The externally visible effect chosen by `button_callback`
(lines 322-365) for one callback-data string: issue a backend request with
the decoded fields, report a decode failure, edit in the fixed cancellation
text, or do nothing for unrecognized data. -/
inductive CallbackEffect where
  | ignored
  | decodeFailed
  | backendRequest (media_id : Int) (media_type : List Char) (seasons : Option (List Nat))
  | cancelled
deriving DecidableEq

/-- The branch structure of `button_callback` (lines 336-365): a
`request_`-prefixed string is decoded and, on success, executed as a backend
request; the literal `"cancel_request"` string only edits the message; any
other data falls through with no effect. -/
def buttonCallback (data : List Char) : CallbackEffect :=
  if pyStartsWith ("request_".toList) data then
    match decodeCallback data with
    | .ok t => .backendRequest t.media_id t.media_type t.seasons
    | .error _ => .decodeFailed
  else if data = "cancel_request".toList then .cancelled
  else .ignored

/-- A concrete backend result list used to instantiate universally
quantified theorems: three tv results and one movie result, in backend
ranking order. -/
def sampleResults : List RawResult :=
  [⟨some 10, some ("A".toList), none, some ("2021-05-01".toList), some ("tv".toList),
      none, none, none⟩,
   ⟨some 11, none, some ("B".toList), none, some ("movie".toList), none, none,
      some ⟨some 5, none⟩⟩,
   ⟨some 12, some ("C".toList), none, none, some ("tv".toList), none,
      some ("/p.jpg".toList), some ⟨some 2, none⟩⟩,
   ⟨some 13, some ("D".toList), none, none, some ("tv".toList), none, none, none⟩]

/-- The message text edited in by each `button_callback` effect, when that
text is fixed by the branch itself rather than by the backend response:
`"Request cancelled."` for cancellation (line 365) and the fixed apology for
a decode failure (lines 361-363). -/
def effectMessage : CallbackEffect → Option (List Char)
  | .cancelled => some ("Request cancelled.".toList)
  | .decodeFailed => some ("Sorry, there was an error processing your request.".toList)
  | _ => none

/-! Helper lemmas about the string primitives. -/

lemma digitChar_toNat {d : Nat} (h : d < 10) : (digitChar d).toNat = 48 + d := by
  interval_cases d <;> rfl

lemma isDigitChar_digitChar {d : Nat} (h : d < 10) : isDigitChar (digitChar d) = true := by
  interval_cases d <;> decide

lemma natToCharsAux_eq :
    ∀ (fuel n : Nat) (acc : List Char), n ≤ fuel →
      natToCharsAux fuel n acc = ((Nat.digits 10 n).reverse.map digitChar) ++ acc := by
  intro fuel
  induction fuel with
  | zero =>
      intro n acc h
      interval_cases n
      simp [natToCharsAux]
  | succ f ih =>
      intro n acc h
      by_cases hn : n = 0
      · subst hn; simp [natToCharsAux]
      · have hdiv : n / 10 ≤ f := by
          have : n / 10 < n := Nat.div_lt_self (Nat.pos_of_ne_zero hn) (by norm_num)
          omega
        rw [natToCharsAux, if_neg hn, ih (n / 10) _ hdiv,
          Nat.digits_def' (by norm_num : (1 : Nat) < 10) (Nat.pos_of_ne_zero hn)]
        simp

lemma natToChars_eq_digits {n : Nat} (h : n ≠ 0) :
    natToChars n = (Nat.digits 10 n).reverse.map digitChar := by
  rw [natToChars, if_neg h, natToCharsAux_eq n n [] le_rfl, List.append_nil]

lemma natToChars_all_digits (n : Nat) : ∀ c ∈ natToChars n, isDigitChar c = true := by
  intro c hc
  by_cases hn : n = 0
  · subst hn
    have h0 : natToChars 0 = ['0'] := rfl
    rw [h0] at hc
    rw [List.mem_singleton.mp hc]
    decide
  · rw [natToChars_eq_digits hn] at hc
    rcases List.mem_map.mp hc with ⟨d, hd, rfl⟩
    exact isDigitChar_digitChar (Nat.digits_lt_base (by norm_num) (List.mem_reverse.mp hd))

lemma natToChars_ne_nil (n : Nat) : natToChars n ≠ [] := by
  by_cases hn : n = 0
  · subst hn; simp [natToChars]
  · rw [natToChars_eq_digits hn]
    simp [Nat.digits_ne_nil_iff_ne_zero.mpr hn]

lemma not_mem_natToChars_of_not_digit {c : Char} (hc : isDigitChar c = false) (n : Nat) :
    c ∉ natToChars n := by
  intro h
  rw [natToChars_all_digits n c h] at hc
  cases hc

lemma foldl_digits (L : List Nat) (h : ∀ d ∈ L, d < 10) :
    List.foldl (fun a c => 10 * a + (c.toNat - 48)) 0 ((L.reverse).map digitChar) =
      Nat.ofDigits 10 L := by
  induction L with
  | nil => simp [Nat.ofDigits]
  | cons d L ih =>
      have hd : d < 10 := h d (by simp)
      have hL : ∀ x ∈ L, x < 10 := fun x hx => h x (by simp [hx])
      rw [List.reverse_cons, List.map_append, List.foldl_append, ih hL, Nat.ofDigits_cons]
      simp [digitChar_toNat hd]
      ring

lemma digitsToNat_natToChars (n : Nat) : digitsToNat (natToChars n) = n := by
  by_cases hn : n = 0
  · subst hn; rfl
  · rw [natToChars_eq_digits hn]
    have := foldl_digits (Nat.digits 10 n)
      (fun d hd => Nat.digits_lt_base (by norm_num) hd)
    rw [digitsToNat, this, Nat.ofDigits_digits]

lemma pyInt_of_digits (cs : List Char) (hne : cs ≠ [])
    (hall : ∀ c ∈ cs, isDigitChar c = true) :
    pyInt cs = some ((digitsToNat cs : Nat) : Int) := by
  cases cs with
  | nil => exact absurd rfl hne
  | cons c rest =>
      have hc : isDigitChar c = true := hall c (by simp)
      have hc1 : c ≠ '-' := by intro h; subst h; simp [isDigitChar] at hc
      have hc2 : c ≠ '+' := by intro h; subst h; simp [isDigitChar] at hc
      have hallb : (c :: rest).all isDigitChar = true :=
        List.all_eq_true.mpr (fun x hx => hall x hx)
      simp [pyInt, hc1, hc2, hallb]

lemma pyInt_natToChars (n : Nat) : pyInt (natToChars n) = some ((n : Nat) : Int) := by
  rw [pyInt_of_digits (natToChars n) (natToChars_ne_nil n) (natToChars_all_digits n),
    digitsToNat_natToChars]

lemma pyIsDigit_natToChars (n : Nat) : pyIsDigit (natToChars n) = true := by
  have h1 := natToChars_ne_nil n
  have h2 := natToChars_all_digits n
  simp [pyIsDigit, List.isEmpty_iff, h1, List.all_eq_true]
  exact fun x hx => h2 x hx

lemma pySplit_sep_free (sep : Char) (l : List Char) (h : sep ∉ l) :
    pySplit sep l = [l] := by
  induction l with
  | nil => rfl
  | cons c cs ih =>
      have hc : ¬c = sep := by intro e; exact h (by simp [e])
      have hcs : sep ∉ cs := fun m => h (by simp [m])
      simp [pySplit, hc, ih hcs]

lemma pySplit_append (sep : Char) (l1 l2 : List Char) (h : sep ∉ l1) :
    pySplit sep (l1 ++ sep :: l2) = l1 :: pySplit sep l2 := by
  induction l1 with
  | nil => simp [pySplit]
  | cons c cs ih =>
      have hc : ¬c = sep := by intro e; exact h (by simp [e])
      have hcs : sep ∉ cs := fun m => h (by simp [m])
      have hrec := ih hcs
      simp only [List.cons_append, pySplit, hc, if_false, List.append_eq, hrec]

lemma mem_pyJoin {c sep : Char} :
    ∀ {parts : List (List Char)}, c ∈ pyJoin sep parts → c = sep ∨ ∃ p ∈ parts, c ∈ p := by
  intro parts
  induction parts with
  | nil => intro h; simp [pyJoin] at h
  | cons p ps ih =>
      cases ps with
      | nil =>
          intro h
          right
          exact ⟨p, by simp, by simpa [pyJoin] using h⟩
      | cons q qs =>
          intro h
          have h' : c ∈ p ++ sep :: pyJoin sep (q :: qs) := h
          rcases List.mem_append.mp h' with h1 | h2
          · exact Or.inr ⟨p, by simp, h1⟩
          · rcases List.mem_cons.mp h2 with h3 | h4
            · exact Or.inl h3
            · rcases ih h4 with h5 | ⟨x, hx, hcx⟩
              · exact Or.inl h5
              · exact Or.inr ⟨x, by simp [List.mem_cons.mp hx], hcx⟩

lemma pySplit_pyJoin (sep : Char) :
    ∀ (parts : List (List Char)), parts ≠ [] → (∀ p ∈ parts, sep ∉ p) →
      pySplit sep (pyJoin sep parts) = parts := by
  intro parts
  induction parts with
  | nil => intro h; exact absurd rfl h
  | cons p ps ih =>
      intro _ hfree
      cases ps with
      | nil => simpa [pyJoin] using pySplit_sep_free sep p (hfree p (by simp))
      | cons q qs =>
          have hstep : pyJoin sep (p :: q :: qs) = p ++ sep :: pyJoin sep (q :: qs) := rfl
          rw [hstep, pySplit_append sep p _ (hfree p (by simp)),
            ih (by simp) (fun x hx => hfree x (by simp [hx]))]

lemma pyStartsWith_append (p rest : List Char) : pyStartsWith p (p ++ rest) = true := by
  induction p with
  | nil => rfl
  | cons c cs ih => simp [pyStartsWith, ih]

lemma map_digitsToNat_natToChars (L : List Nat) :
    (L.map natToChars).map digitsToNat = L := by
  induction L with
  | nil => rfl
  | cons d L ih => simp [digitsToNat_natToChars, ih]

lemma not_mem_pyJoin_natToChars {c : Char} (hc : isDigitChar c = false) (hne : c ≠ '-')
    (L : List Nat) : c ∉ pyJoin '-' (L.map natToChars) := by
  intro h
  rcases mem_pyJoin h with h1 | ⟨p, hp, hcp⟩
  · exact hne h1
  · rcases List.mem_map.mp hp with ⟨n, _, rfl⟩
    exact not_mem_natToChars_of_not_digit hc n hcp

lemma encode_tv_shape (id : Nat) (ss : List Nat) (h : ss ≠ []) :
    encodeCallback ("tv".toList) id ss =
      "request".toList ++ '_' :: ("tv".toList ++ '_' :: (natToChars id ++ '_' ::
        pyJoin '-' ((List.insertionSort (· ≤ ·) ss).map natToChars))) := by
  simp [encodeCallback, h]

lemma encode_tv_parts (id : Nat) (ss : List Nat) (h : ss ≠ []) :
    pySplit '_' (encodeCallback ("tv".toList) id ss) =
      ["request".toList, "tv".toList, natToChars id,
        pyJoin '-' ((List.insertionSort (· ≤ ·) ss).map natToChars)] := by
  have hu : isDigitChar '_' = false := by decide
  have h1 : ('_' : Char) ∉ "request".toList := by decide
  have h2 : ('_' : Char) ∉ "tv".toList := by decide
  have h3 : ('_' : Char) ∉ natToChars id := not_mem_natToChars_of_not_digit hu id
  have h4 : ('_' : Char) ∉
      pyJoin '-' ((List.insertionSort (· ≤ ·) ss).map natToChars) :=
    not_mem_pyJoin_natToChars hu (by decide) _
  rw [encode_tv_shape id ss h, pySplit_append _ _ _ h1, pySplit_append _ _ _ h2,
    pySplit_append _ _ _ h3, pySplit_sep_free _ _ h4]

lemma decodeCallback_tv_of_parts (data idStr sp : List Char) (m : Int) (sorted : List Nat)
    (hpre : pyStartsWith ("request_".toList) data = true)
    (hparts : pySplit '_' data = ["request".toList, "tv".toList, idStr, sp])
    (hint : pyInt idStr = some m)
    (hsp : pySplit '-' sp = sorted.map natToChars)
    (hsortedne : sorted ≠ []) :
    decodeCallback data = .ok ⟨"tv".toList, m, some sorted⟩ := by
  have hfilter : (sorted.map natToChars).filter pyIsDigit = sorted.map natToChars :=
    List.filter_eq_self.mpr (fun p hp => by
      rcases List.mem_map.mp hp with ⟨n, _, rfl⟩
      exact pyIsDigit_natToChars n)
  simp only [decodeCallback, hpre, if_true, hparts, hint, hsp, hfilter,
    map_digitsToNat_natToChars, List.getElem?_cons_zero, List.getElem?_cons_succ,
    List.length_cons, List.getD, List.get?_eq_getElem?]
  rw [Option.getD_some, hsp, hfilter, map_digitsToNat_natToChars]
  simp [hsortedne]

/-- C1: Round-trip of the action-token codec — for every token with media
type "tv", a positive media id, and a season set of 1 to 5 distinct positive
integers each at most 99, decoding (with `button_callback`'s parser) the
callback-data string built by `handle_message` yields the same media type,
the same media id, and the same set of seasons, independent of encoding
order. -/
theorem token_roundtrip (id : Nat) (ss : List Nat) (hid : 0 < id)
    (hlen1 : 1 ≤ ss.length) (hlen5 : ss.length ≤ 5) (hnd : ss.Nodup)
    (hbound : ∀ n ∈ ss, 0 < n ∧ n ≤ 99) :
    ∃ t : ActionToken,
      decodeCallback (encodeCallback ("tv".toList) id ss) = .ok t ∧
        t.media_type = "tv".toList ∧ t.media_id = (id : Int) ∧
        ∃ l, t.seasons = some l ∧ ∀ n : Nat, (n ∈ l ↔ n ∈ ss) := by
  have hssne : ss ≠ [] := by
    intro e; rw [e] at hlen1; exact absurd hlen1 (by decide)
  have hperm : (List.insertionSort (· ≤ ·) ss).Perm ss := List.perm_insertionSort _ ss
  have hsortedne : List.insertionSort (· ≤ ·) ss ≠ [] := by
    intro e
    have hlen := hperm.length_eq
    rw [e] at hlen
    simp at hlen
    omega
  have hpre : pyStartsWith ("request_".toList) (encodeCallback ("tv".toList) id ss) = true := by
    rw [encode_tv_shape id ss hssne]
    exact pyStartsWith_append ("request_".toList) _
  have hsp : pySplit '-' (pyJoin '-' ((List.insertionSort (· ≤ ·) ss).map natToChars)) =
      (List.insertionSort (· ≤ ·) ss).map natToChars :=
    pySplit_pyJoin '-' _ (by simpa using hsortedne)
      (fun p hp => by
        rcases List.mem_map.mp hp with ⟨n, _, rfl⟩
        exact not_mem_natToChars_of_not_digit (by decide) n)
  have hdec := decodeCallback_tv_of_parts (encodeCallback ("tv".toList) id ss)
    (natToChars id) (pyJoin '-' ((List.insertionSort (· ≤ ·) ss).map natToChars))
    ((id : Nat) : Int) (List.insertionSort (· ≤ ·) ss) hpre
    (encode_tv_parts id ss hssne) (pyInt_natToChars id) hsp hsortedne
  exact ⟨⟨"tv".toList, ((id : Nat) : Int), some (List.insertionSort (· ≤ ·) ss)⟩, hdec,
    rfl, rfl, List.insertionSort (· ≤ ·) ss, rfl, fun n => hperm.mem_iff⟩

/-- Witness for `token_roundtrip` at media id 77 and hinted seasons [3, 1]. -/
theorem token_roundtrip_witness :
    (0 < 77 ∧ 1 ≤ ([3, 1] : List Nat).length ∧ ([3, 1] : List Nat).length ≤ 5 ∧
      ([3, 1] : List Nat).Nodup ∧ ∀ n ∈ ([3, 1] : List Nat), 0 < n ∧ n ≤ 99) ∧
    ∃ t : ActionToken,
      decodeCallback (encodeCallback ("tv".toList) 77 [3, 1]) = .ok t ∧
        t.media_type = "tv".toList ∧ t.media_id = (77 : Int) ∧
        ∃ l, t.seasons = some l ∧ ∀ n : Nat, (n ∈ l ↔ n ∈ ([3, 1] : List Nat)) :=
  ⟨⟨by decide, by decide, by decide, by decide, by decide⟩,
    token_roundtrip 77 [3, 1] (by decide) (by decide) (by decide) (by decide) (by decide)⟩

/-- C2 counterexample: the decoder of `button_callback` accepts a media-type
segment outside the two literals ("request_foo_5" decodes), accepts a
seasons-bearing token whose media type is movie ("request_movie_5_1-3"
decodes with the seasons segment silently ignored), and accepts a
non-positive media id ("request_tv_0" decodes), all contradicting the claim
that such strings are rejected. -/
theorem decode_validation_counterexample :
    decodeCallback ("request_foo_5".toList) = .ok ⟨"foo".toList, 5, none⟩ ∧
    decodeCallback ("request_movie_5_1-3".toList) = .ok ⟨"movie".toList, 5, none⟩ ∧
    decodeCallback ("request_tv_0".toList) = .ok ⟨"tv".toList, 0, none⟩ := by
  exact ⟨rfl, rfl, rfl⟩

/-- C2 (amended): the decoder rejects any string not starting with the
literal prefix "request_", and any successfully decoded token takes its
media id from an `int(...)` parse of segment 2 and its media type verbatim
from segment 1 with no validation against the two known literals; a token
whose media type is not "tv" never carries seasons, because a fourth segment
is ignored (not rejected) for such tokens. -/
theorem decode_validation_amended (data : List Char) :
    (pyStartsWith ("request_".toList) data = false →
      decodeCallback data = .error .notRequestToken) ∧
    (∀ t, decodeCallback data = .ok t →
      (∃ seg, (pySplit '_' data)[2]? = some seg ∧ pyInt seg = some t.media_id) ∧
      (pySplit '_' data)[1]? = some t.media_type ∧
      (t.media_type ≠ "tv".toList → t.seasons = none)) := by
  constructor
  · intro h
    unfold decodeCallback
    rw [h]
    simp
  · intro t ht
    unfold decodeCallback at ht
    by_cases hp : pyStartsWith ("request_".toList) data = true
    · rw [hp] at ht
      simp only [if_true] at ht
      split at ht
      next => cases ht
      next mt h1 =>
        split at ht
        next => cases ht
        next idStr h2 =>
          split at ht
          next => cases ht
          next m h3 =>
            simp only [Except.ok.injEq] at ht
            subst ht
            exact ⟨⟨idStr, h2, h3⟩, h1, fun hmt => if_neg (fun hc => hmt hc.2)⟩
    · have hp' : pyStartsWith ("request_".toList) data = false := by
        rw [Bool.not_eq_true] at hp; exact hp
      rw [hp'] at ht
      simp at ht

/-- Witness for `decode_validation_amended` at the concrete non-token string
"hello". -/
theorem decode_validation_amended_witness :
    decodeCallback ("hello".toList) = .error .notRequestToken :=
  (decode_validation_amended ("hello".toList)).1 (by decide)

/-- C3 (code-bug evidence): on a failed backend response, `search_overseerr`
returns the one-element list holding the raw response text (line 94), not
the empty list promised by its own docstring (line 40), and no
distinguishable error value. -/
theorem search_failure_returns_text :
    search_overseerr ("movie".toList) ⟨false, [], "Internal Server Error".toList⟩ =
      [SearchItem.text ("Internal Server Error".toList)] ∧
    (search_overseerr ("movie".toList)
      ⟨false, [], "Internal Server Error".toList⟩).length = 1 := by
  exact ⟨rfl, rfl⟩

/-- C4: Status derivation — for every pair of backend status codes the
derived status is "Available" when either code is 5, else "Requested" when
either code lies in {2, 3, 4}, else "Not Requested"; in particular
(5, null) is Available, (2, null) is Requested, (null, null) is
Not Requested (as is an absent mediaInfo record), and (1, 5) is Available. -/
theorem status_derivation (st st4k : Option Int) :
    (deriveStatus (some ⟨st, st4k⟩) =
      if st = some 5 ∨ st4k = some 5 then "Available".toList
      else if st ∈ [some 2, some 3, some 4] ∨ st4k ∈ [some 2, some 3, some 4] then
        "Requested".toList
      else "Not Requested".toList) ∧
    deriveStatus (some ⟨some 5, none⟩) = "Available".toList ∧
    deriveStatus (some ⟨some 2, none⟩) = "Requested".toList ∧
    deriveStatus (some ⟨none, none⟩) = "Not Requested".toList ∧
    deriveStatus none = "Not Requested".toList ∧
    deriveStatus (some ⟨some 1, some 5⟩) = "Available".toList := by
  refine ⟨?_, by decide, by decide, by decide, by decide, by decide⟩
  simp [deriveStatus]

/-- C6: Encoding format — every encoded token is the literal "request_",
the media type, "_", and the decimal media id, followed by "_" and the
seasons sorted ascending and joined by "-" exactly when the media type is
"tv" and the season list is non-empty; concretely a movie token with id 123
encodes to "request_movie_123" and a tv token with id 77 and seasons {1, 3}
encodes to "request_tv_77_1-3". -/
theorem encode_format (mt : List Char) (id : Nat) (ss : List Nat) :
    (encodeCallback mt id ss =
      "request_".toList ++ mt ++ '_' :: natToChars id ++
        (if mt = "tv".toList ∧ ss ≠ [] then
          '_' :: pyJoin '-' ((List.insertionSort (· ≤ ·) ss).map natToChars)
         else [])) ∧
    encodeCallback ("movie".toList) 123 [] = "request_movie_123".toList ∧
    encodeCallback ("tv".toList) 77 [3, 1] = "request_tv_77_1-3".toList := by
  refine ⟨?_, by decide, by decide⟩
  by_cases h1 : mt = "tv".toList <;> by_cases h2 : ss = [] <;>
    simp [encodeCallback, h1, h2]

/-- C7: Search truncation and order — for every raw result list and every
requested (truthy) media-type filter, the processed candidate list has at
most 2 elements and is an initial segment of the media-type-filtered result
list processed in backend order. -/
theorem search_truncation (mt : List Char) (rs : List RawResult) (h : mt ≠ []) :
    (processSearch mt rs).length ≤ 2 ∧
    ∃ rest, (rs.filter (fun r => r.mediaType = some mt)).map mkCandidate =
      processSearch mt rs ++ rest := by
  constructor
  · have hl : (processSearch mt rs).length =
        min 2 (rs.filter (fun r => r.mediaType = some mt)).length := by
      simp [processSearch, h]
    omega
  · refine ⟨((rs.filter (fun r => r.mediaType = some mt)).drop 2).map mkCandidate, ?_⟩
    simp only [processSearch, h, ne_eq, not_false_iff, if_true]
    rw [← List.map_append, List.take_append_drop]

/-- Witness for `search_truncation` on a concrete four-element backend
result list filtered to "tv". -/
theorem search_truncation_witness :
    (("tv".toList : List Char) ≠ []) ∧
    ((processSearch ("tv".toList) sampleResults).length ≤ 2 ∧
      ∃ rest, (sampleResults.filter (fun r => r.mediaType = some ("tv".toList))).map
          mkCandidate = processSearch ("tv".toList) sampleResults ++ rest) :=
  ⟨by decide, search_truncation ("tv".toList) sampleResults (by decide)⟩

/-- C8: Request payload shape — the payload built by `request_overseerr`
carries a seasons field exactly when the media type is "tv" and the seasons
argument is a non-empty list; in every case the payload carries exactly the
given media id and media type. -/
theorem request_payload_seasons (id : Int) (mt : List Char) (s : Option (List Nat)) :
    ((requestPayload id mt s).seasons ≠ none ↔
      mt = "tv".toList ∧ ∃ l, s = some l ∧ l ≠ []) ∧
    (requestPayload id mt s).mediaId = id ∧ (requestPayload id mt s).mediaType = mt := by
  refine ⟨?_, rfl, rfl⟩
  cases s with
  | none => simp [requestPayload]
  | some l =>
      by_cases h1 : mt = "tv".toList
      · by_cases h2 : l = [] <;> simp [requestPayload, h1, h2]
      · simp [requestPayload, h1]

/-- C9: Cancellation is effect-free — the fixed cancellation token makes
`button_callback` take the cancellation branch, whose message is the fixed
"Request cancelled." text and which is distinct from every backend-request
effect. -/
theorem cancel_effect_free :
    buttonCallback ("cancel_request".toList) = CallbackEffect.cancelled ∧
    effectMessage CallbackEffect.cancelled = some ("Request cancelled.".toList) ∧
    (∀ (id : Int) (mt : List Char) (s : Option (List Nat)),
      buttonCallback ("cancel_request".toList) ≠ CallbackEffect.backendRequest id mt s) := by
  refine ⟨by decide, rfl, ?_⟩
  intro id mt s hcontra
  rw [(by decide : buttonCallback ("cancel_request".toList) = CallbackEffect.cancelled)]
    at hcontra
  exact CallbackEffect.noConfusion hcontra

/-- C10: Candidate year derivation — the year field is the first four
characters of the raw result's releaseDate, and the empty string (not an
absent value) when releaseDate is missing; a non-date string such as
"abcdefg" passes through unvalidated as "abcd". -/
theorem candidate_year (r : RawResult) :
    ((mkCandidate r).year =
      match r.releaseDate with
      | some s => s.take 4
      | none => []) ∧
    (mkCandidate ⟨some 1, some ("T".toList), none, some ("abcdefg".toList),
        some ("tv".toList), none, none, none⟩).year = "abcd".toList := by
  constructor
  · cases h : r.releaseDate <;> simp [mkCandidate, h]
  · decide

end Teleseerr
